import Mathlib

/-!
Verification of the sheet-backed record-store client ("Daily Profits App").

The repository ships the consumer component `src/src/app/page.tsx`; the
`SheetClient` data-access layer it calls (`../lib/sheet-client`) is not part
of the source tree, so the client, its cache and the backend collaborator are
modelled here from the specification (each such definition says so in its doc
comment).  The consumer handlers (`loadData`, `handleAddRow`,
`handleUpdateField`, the cell `onBlur` handlers) are embedded from
`page.tsx` directly.

Design of the embedding: machine time is a `Nat` (seconds); the backend is a
list of raw records; a `World` carries the backend state, the current time and
a counter of backend reads (used to state the caching properties); client
operations are pure state transformers on `ClientState × World`.
-/

namespace SheetApp

/-- Modelled from the spec (§3, §6; the backend collaborator is not in the
source tree): a raw backend record, i.e. one sheet row as the backend hands it
over — stable id metadata plus the ordered field mapping (column name to
string value). -/
structure Rec where
  id : String
  fields : List (String × String)
deriving Repr, DecidableEq

/-- Modelled from the spec (§3 "Row", the Row Model is not in the source
tree): named string fields plus `_id` (written `id` here) and the 1-based
`_rowIndex` (written `rowIndex`). -/
structure Row where
  id : String
  rowIndex : Nat
  fields : List (String × String)
deriving Repr, DecidableEq

/-- Look a field up in an ordered field mapping (`none` when the column is
absent). -/
def lookupField (fs : List (String × String)) (f : String) : Option String :=
  (fs.find? (fun p => p.1 == f)).map Prod.snd

/-- The value of field `f` of row `r`, defaulting to `""` when absent —
models the JavaScript access `row[field]`. -/
def getField (r : Row) (f : String) : String :=
  (lookupField r.fields f).getD ""

/-- Modelled from the spec (§4.1, the Row Model is not in the source tree):
raw backend records become `Row` values by attaching `_id` from the record
metadata and `_rowIndex` as the 1-based sheet position. -/
def toRows (recs : List Rec) : List Row :=
  recs.enum.map (fun p => { id := p.2.id, rowIndex := p.1 + 1, fields := p.2.fields })

/-- Modelled from the spec (§3 "Cache entry", the Cache is not in the source
tree): the rows of the last full fetch and the time they were fetched. -/
structure CacheEntry where
  rows : List Row
  fetchedAt : Nat
deriving Repr, DecidableEq

/-- TTL of the cache: 30 seconds (spec §3, glossary). -/
def TTL : Nat := 30

/-- Modelled from the spec (§4.2, the Cache is not in the source tree):
`get()` returns the cached row list if `fetchedAt` is within TTL
(`now - fetchedAt < TTL`), else signals "miss" (`none`). -/
def cacheGet (c : Option CacheEntry) (now : Nat) : Option (List Row) :=
  match c with
  | some e => if now - e.fetchedAt < TTL then some e.rows else none
  | none => none

/-- Modelled from the spec (§9, the SheetClient is not in the source tree):
the per-instance state of a `SheetClient` — its cache entry, `none` when
empty/invalidated. -/
structure ClientState where
  cache : Option CacheEntry
deriving Repr, DecidableEq

/-- A freshly constructed `SheetClient` (`new SheetClient()`): empty cache. -/
def newClient : ClientState := { cache := none }

/-- Modelled from the spec (§6, the backend collaborator is not in the source
tree): everything outside one client instance — the backend's record list, a
counter for freshly assigned row ids, the current time, and a count of
backend reads (instrumentation used to state the caching properties). -/
structure World where
  backend : List Rec
  nextId : Nat
  now : Nat
  reads : Nat
deriving Repr, DecidableEq

/-- Modelled from the spec (§4.3 fetchAll, the SheetClient is not in the
source tree): use `Cache.get()`; on miss, read the backend (counted in
`reads`), run the Row Model mapping, `Cache.put()` stamping `fetchedAt = now`,
and return the rows. -/
def fetchAll (cs : ClientState) (w : World) : List Row × ClientState × World :=
  match cacheGet cs.cache w.now with
  | some rows => (rows, cs, w)
  | none =>
    let rows := toRows w.backend
    (rows, { cache := some { rows := rows, fetchedAt := w.now } },
      { w with reads := w.reads + 1 })

/-- An identifier passed to `updateField`/`getRowById`: `string | number`. -/
inductive Ident where
  | str (s : String)
  | num (n : Nat)
deriving Repr, DecidableEq

/-- The string form of an identifier, used for field-value comparison. -/
def Ident.asString : Ident → String
  | .str s => s
  | .num n => toString n

/-- Exact `_id` match (spec §4.3 first cascade step). -/
def identMatchesId (i : Ident) (r : Row) : Bool :=
  r.id == i.asString

/-- Exact `_rowIndex` match (spec §4.3 second cascade step); a string
identifier matches when it is exactly the decimal rendering of the index. -/
def identMatchesIndex (i : Ident) (r : Row) : Bool :=
  match i with
  | .str s => toString r.rowIndex == s
  | .num n => r.rowIndex == n

/-- Any field value string-equal to the identifier (spec §4.3 third cascade
step). -/
def identMatchesField (i : Ident) (r : Row) : Bool :=
  r.fields.any (fun p => p.2 == i.asString)

/-- Modelled from the spec (§4.3, the SheetClient is not in the source tree):
resolve `identifier` to a single row via, in order: exact `_id` match, else
exact `_rowIndex` match, else first row whose any field value equals the
identifier (string equality). -/
def resolveRow (rows : List Row) (i : Ident) : Option Row :=
  match rows.find? (identMatchesId i) with
  | some r => some r
  | none =>
    match rows.find? (identMatchesIndex i) with
    | some r => some r
    | none => rows.find? (identMatchesField i)

/-- Modelled from the spec (§4.3 getRowById, the SheetClient is not in the
source tree): fetch the rows (fetchAll semantics, so possibly cache-served)
and apply the same resolution rule as update-field; `none` when no row
matches (not an error). -/
def getRowById (cs : ClientState) (w : World) (i : Ident) :
    Option Row × ClientState × World :=
  let out := fetchAll cs w
  (resolveRow out.1 i, out.2)

/-- Result of a mutating call (spec §3 "ApiResponse"):
`{success: bool, error?: string}`. -/
structure ApiResponse where
  success : Bool
  error : Option String
deriving Repr, DecidableEq

/-- Input to update-field (spec §3 "UpdateOperation"):
`{identifier, field, newValue, oldValue?}`. -/
structure UpdateOperation where
  identifier : Ident
  field : String
  newValue : String
  oldValue : Option String
deriving Repr, DecidableEq

/-- Set field `f` to `v` in an ordered field mapping, leaving every other
pair — and the column order — untouched; an absent column stays absent. -/
def setField (fs : List (String × String)) (f v : String) :
    List (String × String) :=
  fs.map (fun p => if p.1 == f then (p.1, v) else p)

/-- Modelled from the spec (§6 "Write-field", the backend collaborator is not
in the source tree): set field `f` of the record at 0-based position `idx` to
`v`; out-of-range positions leave the backend unchanged. -/
def writeAt (recs : List Rec) (idx : Nat) (f v : String) : List Rec :=
  match recs[idx]? with
  | some r => recs.set idx { r with fields := setField r.fields f v }
  | none => recs

/-- Modelled from the spec (§4.3 add, the SheetClient is not in the source
tree): fill the declared columns from `fields`, leaving omitted columns
blank. -/
def blankFill (schema : List String) (fields : List (String × String)) :
    List (String × String) :=
  schema.map (fun c => (c, (lookupField fields c).getD ""))

/-- The declared columns of the "Daily Profits" sheet (page.tsx headers). -/
def schema : List String := ["StoreName", "Date", "Profit"]

/-- Modelled from the spec (§4.3 add, the SheetClient is not in the source
tree): the backend-accepted path of `add(fields)` — append one row with the
given field values (omitted columns blank) and a freshly assigned id, then
`Cache.invalidate()`, returning `{success: true}`. -/
def add (cs : ClientState) (w : World) (fields : List (String × String)) :
    ApiResponse × ClientState × World :=
  let r : Rec := { id := "r" ++ toString w.nextId, fields := blankFill schema fields }
  let _ := cs
  ({ success := true, error := none }, { cache := none },
    { w with backend := w.backend ++ [r], nextId := w.nextId + 1 })

/-- Modelled from the spec (§4.3 updateField, §6 "Write-field"; the
SheetClient is not in the source tree): resolve the identifier over the
current sheet; no match yields `{success: false}` with the cache untouched;
with `oldValue` supplied the backend write is conditioned on the field's
current value equaling `oldValue`, a mismatch yielding a conflict failure
with backend and cache untouched; on a performed write the one field of the
one resolved row is set and the cache invalidated. -/
def updateField (cs : ClientState) (w : World) (op : UpdateOperation) :
    ApiResponse × ClientState × World :=
  match resolveRow (toRows w.backend) op.identifier with
  | none => ({ success := false, error := some "Row not found" }, cs, w)
  | some r =>
    let write : ApiResponse × ClientState × World :=
      ({ success := true, error := none }, { cache := none },
        { w with backend := writeAt w.backend (r.rowIndex - 1) op.field op.newValue })
    match op.oldValue with
    | some ov =>
      if getField r op.field == ov then write
      else ({ success := false, error := some "Conflict: current value does not match oldValue" }, cs, w)
    | none => write

/-- Search comparison operators (spec §4.4). -/
inductive Operator where
  | contains
  | equals
  | startsWith
  | endsWith
deriving Repr, DecidableEq

/-- Input to search (spec §3 "SearchQuery"): `{field?, value, operator?}`. -/
structure SearchQuery where
  field : Option String
  value : String
  operator : Option Operator
deriving Repr, DecidableEq

/-- Whether `needle` is a prefix of `hay` (character lists). -/
def isPrefixB : List Char → List Char → Bool
  | [], _ => true
  | _ :: _, [] => false
  | c :: cs, d :: ds => c == d && isPrefixB cs ds

/-- Whether `needle` occurs as a contiguous run inside `hay` (character lists). -/
def isInfixB (needle : List Char) : List Char → Bool
  | [] => isPrefixB needle []
  | l@(_ :: tl) => isPrefixB needle l || isInfixB needle tl

/-- Whether `needle` occurs as a substring of `hay`, ignoring case. -/
def substr (needle hay : String) : Bool :=
  isInfixB (needle.data.map Char.toLower) (hay.data.map Char.toLower)

/-- Modelled from the spec (§4.3 search, the SheetClient is not in the source
tree): one comparison of a query value against a field value — `contains` is
a case-insensitive substring test, `equals` an exact string match,
`startsWith`/`endsWith` literal affix tests. -/
def opMatch (op : Operator) (value target : String) : Bool :=
  match op with
  | .contains => substr value target
  | .equals => target == value
  | .startsWith => isPrefixB value.data target.data
  | .endsWith => isPrefixB value.data.reverse target.data.reverse

/-- Modelled from the spec (§4.3 search, the SheetClient is not in the source
tree): a row matches when the query value compares true against the named
field's value if `field` is given, else against any field value; the operator
defaults to `contains` when omitted. -/
def rowMatches (q : SearchQuery) (r : Row) : Bool :=
  let op := q.operator.getD .contains
  match q.field with
  | some f => opMatch op q.value (getField r f)
  | none => r.fields.any (fun p => opMatch op q.value p.2)

/-- Modelled from the spec (§4.3 search, the SheetClient is not in the source
tree): fetch the full row list (fetchAll semantics, possibly cache-served)
and keep the matching rows in their original order. -/
def search (cs : ClientState) (w : World) (q : SearchQuery) :
    List Row × ClientState × World :=
  let out := fetchAll cs w
  (out.1.filter (rowMatches q), out.2)

/-- The backend's verdict on one mutating call, an input to the call-level
wrappers below: accepted, rejected with a message (validation, quota), or a
transport-level failure. -/
inductive BackendBehavior where
  | accept
  | reject (msg : String)
  | transportFail (msg : String)
deriving Repr, DecidableEq

/-- Modelled from the spec (§4.3 add, §7; the SheetClient is not in the
source tree): the full `add` call under a given backend verdict.  A transport
failure is the promise rejecting (`Except.error`); a backend rejection is
returned as `{success: false, error: msg}` with all state untouched; an
accepted call runs `add`. -/
def addCall (b : BackendBehavior) (cs : ClientState) (w : World)
    (fields : List (String × String)) :
    Except String (ApiResponse × ClientState × World) :=
  match b with
  | .transportFail msg => .error msg
  | .reject msg => .ok ({ success := false, error := some msg }, cs, w)
  | .accept => .ok (add cs w fields)

/-- Modelled from the spec (§4.3 updateField, §7; the SheetClient is not in
the source tree): the full `updateField` call under a given backend verdict;
not-found and conflict outcomes are computed by `updateField` itself. -/
def updateFieldCall (b : BackendBehavior) (cs : ClientState) (w : World)
    (op : UpdateOperation) :
    Except String (ApiResponse × ClientState × World) :=
  match b with
  | .transportFail msg => .error msg
  | .reject msg => .ok ({ success := false, error := some msg }, cs, w)
  | .accept => .ok (updateField cs w op)

/-- Modelled from the spec (§4.3 getRowById, §7; the SheetClient is not in
the source tree): the read path has no partial-success notion — only a
transport failure rejects, and a resolution miss is an ordinary `none`. -/
def getRowByIdCall (trans : Option String) (cs : ClientState) (w : World)
    (i : Ident) : Except String (Option Row × ClientState × World) :=
  match trans with
  | some msg => .error msg
  | none => .ok (getRowById cs w i)

/-- One client call, for reasoning about arbitrary call sequences: the five
public operations of the Sheet Client (spec §4.3) — the contract exposes no
delete. -/
inductive ClientOp where
  | fetchAllOp
  | addOp (fields : List (String × String))
  | updateFieldOp (op : UpdateOperation)
  | searchOp (q : SearchQuery)
  | getRowByIdOp (i : Ident)
deriving Repr, DecidableEq

/-- Run one client call at time `t` over a client/world pair, discarding the
returned payload. -/
def step (t : Nat) (op : ClientOp) (s : ClientState × World) :
    ClientState × World :=
  let w := { s.2 with now := t }
  match op with
  | .fetchAllOp => (fetchAll s.1 w).2
  | .addOp fields => (add s.1 w fields).2
  | .updateFieldOp u => (updateField s.1 w u).2
  | .searchOp q => (search s.1 w q).2
  | .getRowByIdOp i => (getRowById s.1 w i).2

/-- Run a timed sequence of client calls. -/
def run (ops : List (Nat × ClientOp)) (s : ClientState × World) :
    ClientState × World :=
  match ops with
  | [] => s
  | o :: rest => run rest (step o.1 o.2 s)

/-! ### Consumer embedding (from `src/src/app/page.tsx`) -/

/-- The consumer's React state that the handlers touch: the displayed row
list (`data`) and the error banner text (`error`), from `page.tsx` lines
15–17. -/
structure ConsumerState where
  data : List Row
  error : String
deriving Repr, DecidableEq

/-- Embeds `loadData` (`page.tsx` lines 24–38): constructs a brand-new
`SheetClient` and calls `getAllData` on it, storing the result in `data` and
clearing `error`.  The fresh client's post-call state is discarded. -/
def loadData (s : ConsumerState) (w : World) : ConsumerState × World :=
  let out := fetchAll newClient w
  ({ s with data := out.1, error := "" }, out.2.2)

/-- Embeds `handleAddRow` (`page.tsx` lines 40–54): constructs a brand-new
`SheetClient`, calls `addRow`; on success refreshes via `loadData` (itself on
another fresh client), on failure sets the error banner.  The fresh client's
post-call state is discarded. -/
def handleAddRow (s : ConsumerState) (w : World)
    (newRow : List (String × String)) : ConsumerState × World :=
  let out := add newClient w newRow
  if out.1.success then loadData s out.2.2
  else ({ s with error := (out.1.error).getD "Failed to add row" }, out.2.2)

/-- Embeds `handleUpdateField` (`page.tsx` lines 56–73): constructs a
brand-new `SheetClient` and calls `updateField` with
`{identifier: rowId, field, newValue}` — no `oldValue`; on success refreshes
via `loadData`, on failure sets the error banner.  The fresh client's
post-call state is discarded. -/
def handleUpdateField (s : ConsumerState) (w : World)
    (rowId field newValue : String) : ConsumerState × World :=
  let out := updateField newClient w
    { identifier := .str rowId, field := field, newValue := newValue, oldValue := none }
  if out.1.success then loadData s out.2.2
  else ({ s with error := (out.1.error).getD "Failed to update field" }, out.2.2)

/-- Embeds the cell `onBlur` handlers (`page.tsx` lines 336–381): when the
edited text differs from the row's current field value, the handler calls
`handleUpdateField(row._id, field, newValue)`; otherwise nothing is called.
Returns the argument triple of the call, or `none` when no call is made. -/
def cellOnBlur (row : Row) (field newValue : String) :
    Option (String × String × String) :=
  if newValue ≠ getField row field then some (row.id, field, newValue)
  else none

/-- The full effect of one cell edit ending in a blur: either the
`handleUpdateField` call triggered by `cellOnBlur`, or no effect at all. -/
def cellEditStep (s : ConsumerState) (w : World) (row : Row)
    (field newValue : String) : ConsumerState × World :=
  match cellOnBlur row field newValue with
  | some args => handleUpdateField s w args.1 args.2.1 args.2.2
  | none => (s, w)

/-! ### Concrete sample data (spec §8, page.tsx sample rows), for witnesses -/

/-- The first sample row of the sheet as a backend record. -/
def rec1 : Rec :=
  { id := "r1", fields := [("StoreName", "Canberra"), ("Date", "08/08/25"), ("Profit", "18000")] }

/-- The second sample row of the sheet as a backend record. -/
def rec2 : Rec :=
  { id := "r2", fields := [("StoreName", "Melbourne - 1"), ("Date", "09/08/25"), ("Profit", "25000")] }

/-- A sample world holding the two sample rows at time 100 with no reads
performed yet. -/
def w0 : World := { backend := [rec1, rec2], nextId := 3, now := 100, reads := 0 }

/-! ### Helper lemmas -/

/-- Operation `fetchAll` never changes the backend. -/
theorem fetchAll_backend (cs : ClientState) (w : World) :
    (fetchAll cs w).2.2.backend = w.backend := by
  unfold fetchAll
  cases cacheGet cs.cache w.now <;> rfl

/-- On a cache miss, `fetchAll` reads the backend, maps it through the Row
Model and caches the result stamped with the current time. -/
theorem fetchAll_miss (cs : ClientState) (w : World)
    (hmiss : cacheGet cs.cache w.now = none) :
    fetchAll cs w = (toRows w.backend,
      { cache := some { rows := toRows w.backend, fetchedAt := w.now } },
      { w with reads := w.reads + 1 }) := by
  unfold fetchAll
  rw [hmiss]

/-- The backend field write preserves the number of records. -/
theorem writeAt_length (recs : List Rec) (idx : Nat) (f v : String) :
    (writeAt recs idx f v).length = recs.length := by
  unfold writeAt
  cases recs[idx]? with
  | none => rfl
  | some r => simp

/-- The backend field write leaves every other position untouched. -/
theorem writeAt_frame (recs : List Rec) (idx j : Nat) (f v : String)
    (h : j ≠ idx) : (writeAt recs idx f v)[j]? = recs[j]? := by
  unfold writeAt
  cases recs[idx]? with
  | none => rfl
  | some r => exact List.getElem?_set_ne (Ne.symm h)

/-- The backend field write rewrites exactly the targeted record's fields. -/
theorem writeAt_target (recs : List Rec) (idx : Nat) (f v : String) (rc : Rec)
    (h : recs[idx]? = some rc) :
    (writeAt recs idx f v)[idx]? =
      some { rc with fields := setField rc.fields f v } := by
  unfold writeAt
  rw [h]
  exact List.getElem?_set_eq_of_lt _ (List.getElem?_eq_some.mp h).1

/-- Unfolding of `lookupField` on a cons cell. -/
theorem lookupField_cons (p : String × String) (fs : List (String × String))
    (g : String) :
    lookupField (p :: fs) g =
      if p.1 == g then some p.2 else lookupField fs g := by
  by_cases h : (p.1 == g) = true <;> simp [lookupField, List.find?_cons, h]

/-- Unfolding of `setField` on a cons cell. -/
theorem setField_cons (p : String × String) (fs : List (String × String))
    (f v : String) :
    setField (p :: fs) f v =
      (if p.1 == f then (p.1, v) else p) :: setField fs f v := rfl

/-- Operation `setField` leaves the value of every other column unchanged. -/
theorem lookupField_setField_ne (fs : List (String × String)) (f v g : String)
    (h : g ≠ f) : lookupField (setField fs f v) g = lookupField fs g := by
  induction fs with
  | nil => rfl
  | cons p fs ih =>
    rw [setField_cons]
    by_cases hp : (p.1 == f) = true
    · rw [if_pos hp, lookupField_cons, lookupField_cons]
      have hg : (p.1 == g) = false :=
        beq_eq_false_iff_ne.mpr (fun hq => h (hq ▸ eq_of_beq hp))
      simp [hg, ih]
    · rw [if_neg hp, lookupField_cons, lookupField_cons]
      by_cases hg : (p.1 == g) = true <;> simp [hg, ih]

/-- Operation `setField` sets the value of the targeted column when it is present. -/
theorem lookupField_setField_self (fs : List (String × String)) (f v : String)
    (h : (lookupField fs f).isSome) :
    lookupField (setField fs f v) f = some v := by
  induction fs with
  | nil => simp [lookupField] at h
  | cons p fs ih =>
    rw [setField_cons]
    by_cases hp : (p.1 == f) = true
    · rw [if_pos hp, lookupField_cons]
      simp [hp]
    · rw [lookupField_cons] at h
      rw [if_neg hp, lookupField_cons]
      simp only [hp, Bool.false_eq_true, if_false] at h ⊢
      exact ih h

/-- Operation `setField` never makes an absent column appear. -/
theorem lookupField_setField_none (fs : List (String × String)) (f v : String)
    (h : lookupField fs f = none) :
    lookupField (setField fs f v) f = none := by
  induction fs with
  | nil => rfl
  | cons p fs ih =>
    rw [lookupField_cons] at h
    rw [setField_cons]
    by_cases hp : (p.1 == f) = true
    · simp [hp] at h
    · rw [if_neg hp, lookupField_cons]
      simp only [hp, Bool.false_eq_true, if_false] at h ⊢
      exact ih h

/-- A successful `updateField` on a resolved row is exactly the write path:
response `{success: true}`, cache invalidated, targeted field written. -/
theorem updateField_success_eq (cs : ClientState) (w : World)
    (op : UpdateOperation) (r : Row)
    (hres : resolveRow (toRows w.backend) op.identifier = some r)
    (hsucc : (updateField cs w op).1.success = true) :
    updateField cs w op = ({ success := true, error := none }, { cache := none },
      { w with backend := writeAt w.backend (r.rowIndex - 1) op.field op.newValue }) := by
  unfold updateField at hsucc ⊢
  rw [hres] at hsucc ⊢
  cases hov : op.oldValue with
  | none => rfl
  | some ov =>
    by_cases hc : (getField r op.field == ov) = true
    · simp only [hc, if_true]
    · rw [hov] at hsucc
      simp [hc] at hsucc

/-- Complete case analysis of `updateField`: a call either resolves its row
and writes (when no `oldValue` is supplied, or the supplied one matches),
fails with not-found, or fails with a conflict — nothing else. -/
theorem updateField_cases (cs : ClientState) (w : World) (op : UpdateOperation) :
    (∃ r, resolveRow (toRows w.backend) op.identifier = some r ∧
      (op.oldValue = none ∨ ∃ ov, op.oldValue = some ov ∧ getField r op.field = ov) ∧
      updateField cs w op = ({ success := true, error := none }, { cache := none },
        { w with backend := writeAt w.backend (r.rowIndex - 1) op.field op.newValue })) ∨
    (resolveRow (toRows w.backend) op.identifier = none ∧
      updateField cs w op = ({ success := false, error := some "Row not found" }, cs, w)) ∨
    (∃ r ov, resolveRow (toRows w.backend) op.identifier = some r ∧
      op.oldValue = some ov ∧ getField r op.field ≠ ov ∧
      updateField cs w op =
        ({ success := false, error := some "Conflict: current value does not match oldValue" }, cs, w)) := by
  unfold updateField
  cases hres : resolveRow (toRows w.backend) op.identifier with
  | none => exact Or.inr (Or.inl ⟨rfl, rfl⟩)
  | some r =>
    cases hov : op.oldValue with
    | none => exact Or.inl ⟨r, rfl, Or.inl rfl, rfl⟩
    | some ov =>
      by_cases hc : (getField r op.field == ov) = true
      · exact Or.inl ⟨r, rfl, Or.inr ⟨ov, rfl, eq_of_beq hc⟩, by simp [hc]⟩
      · exact Or.inr (Or.inr ⟨r, ov, rfl, rfl,
          fun he => hc (beq_iff_eq.mpr he), by simp [hc]⟩)

/-! ### Claim theorems -/

/-- Claim C1: for every `updateField` or `getRowById` call the identifier is
resolved to at most one row (an `Option Row`) by a fixed cascade — first the
row whose `_id` exactly equals it, failing that the row whose `_rowIndex`
exactly equals it, failing that the first row in sheet order with any field
value string-equal to it — the resolved row is one of the rows, `getRowById`
applies exactly this rule to the fetched rows, and `updateField` fails with
not-found exactly when the rule resolves nothing. -/
theorem c1_resolution_cascade (rows : List Row) (i : Ident) (cs : ClientState)
    (w : World) (op : UpdateOperation) :
    (∀ r, rows.find? (identMatchesId i) = some r → resolveRow rows i = some r) ∧
    (rows.find? (identMatchesId i) = none →
      ∀ r, rows.find? (identMatchesIndex i) = some r → resolveRow rows i = some r) ∧
    (rows.find? (identMatchesId i) = none →
      rows.find? (identMatchesIndex i) = none →
      resolveRow rows i = rows.find? (identMatchesField i)) ∧
    (∀ r, resolveRow rows i = some r → r ∈ rows) ∧
    (getRowById cs w i).1 = resolveRow (fetchAll cs w).1 i ∧
    (resolveRow (toRows w.backend) op.identifier = none →
      (updateField cs w op).1 = { success := false, error := some "Row not found" }) := by
  refine ⟨?_, ?_, ?_, ?_, rfl, ?_⟩
  · intro r h
    unfold resolveRow
    rw [h]
  · intro h1 r h2
    unfold resolveRow
    rw [h1, h2]
  · intro h1 h2
    unfold resolveRow
    rw [h1, h2]
  · intro r h
    unfold resolveRow at h
    cases h1 : rows.find? (identMatchesId i) with
    | some r' =>
      rw [h1] at h
      cases h
      exact List.mem_of_find?_eq_some h1
    | none =>
      rw [h1] at h
      cases h2 : rows.find? (identMatchesIndex i) with
      | some r' =>
        rw [h2] at h
        cases h
        exact List.mem_of_find?_eq_some h2
      | none =>
        rw [h2] at h
        exact List.mem_of_find?_eq_some h
  · intro h
    unfold updateField
    rw [h]

/-- Witness for C1: on the sample sheet, the identifier `"r2"` resolves by
exact `_id` match; the numeric identifier `1` (no `_id` equals `"1"`)
resolves by `_rowIndex`; `"18000"` (no id or index match) resolves by field
value to the first such row. -/
theorem c1_resolution_cascade_witness :
    resolveRow (toRows w0.backend) (.str "r2") = some ⟨"r2", 2, rec2.fields⟩ ∧
    resolveRow (toRows w0.backend) (.num 1) = some ⟨"r1", 1, rec1.fields⟩ ∧
    resolveRow (toRows w0.backend) (.str "18000") = some ⟨"r1", 1, rec1.fields⟩ := by
  refine ⟨?_, ?_, ?_⟩
  · exact (c1_resolution_cascade (toRows w0.backend) (.str "r2") newClient w0
      ⟨.str "r2", "", "", none⟩).1 _ (by decide)
  · exact (c1_resolution_cascade (toRows w0.backend) (.num 1) newClient w0
      ⟨.num 1, "", "", none⟩).2.1 (by decide) _ (by decide)
  · have h := (c1_resolution_cascade (toRows w0.backend) (.str "18000") newClient w0
      ⟨.str "18000", "", "", none⟩).2.2.1 (by decide) (by decide)
    rw [h]
    decide

/-- Claim C2: when a `fetchAll` call misses the cache it performs one backend
read and populates the cache; a second `fetchAll` strictly less than the TTL
(30 s) after the populating fetch performs no further read — exactly one read
for the pair — while a second call once the TTL has elapsed performs a new
backend read. -/
theorem c2_ttl_single_read (cs : ClientState) (w : World) (t2 : Nat)
    (hmiss : cacheGet cs.cache w.now = none) :
    (fetchAll cs w).2.2.reads = w.reads + 1 ∧
    (t2 - w.now < TTL →
      (fetchAll (fetchAll cs w).2.1 { (fetchAll cs w).2.2 with now := t2 }).2.2.reads
        = w.reads + 1) ∧
    (TTL ≤ t2 - w.now →
      (fetchAll (fetchAll cs w).2.1 { (fetchAll cs w).2.2 with now := t2 }).2.2.reads
        = w.reads + 2) := by
  rw [fetchAll_miss cs w hmiss]
  refine ⟨rfl, ?_, ?_⟩
  · intro hin
    unfold fetchAll cacheGet
    simp [if_pos hin]
  · intro hout
    unfold fetchAll cacheGet
    simp [if_neg (Nat.not_lt.mpr hout)]

/-- Witness for C2: starting from an empty cache at time 100, a fetch
followed by a second fetch at time 129 (29 s later) costs one backend read in
total; a second fetch at time 130 costs two. -/
theorem c2_ttl_single_read_witness :
    (fetchAll newClient w0).2.2.reads = w0.reads + 1 ∧
    (fetchAll (fetchAll newClient w0).2.1
      { (fetchAll newClient w0).2.2 with now := 129 }).2.2.reads = w0.reads + 1 ∧
    (fetchAll (fetchAll newClient w0).2.1
      { (fetchAll newClient w0).2.2 with now := 130 }).2.2.reads = w0.reads + 2 := by
  refine ⟨(c2_ttl_single_read newClient w0 129 rfl).1,
    (c2_ttl_single_read newClient w0 129 rfl).2.1 (by decide),
    (c2_ttl_single_read newClient w0 130 rfl).2.2 (by decide)⟩

/-- Claim C3: every successful `add` or `updateField` clears the cache entry,
so a subsequent `fetchAll` (whose cache entry is cleared) reads the backend
instead of serving the cached rows; no failed mutation (backend rejection,
not-found, conflict) touches the cache. -/
theorem c3_cache_invalidation (cs : ClientState) (w w2 : World)
    (fields : List (String × String)) (op : UpdateOperation) (msg : String) :
    (add cs w fields).1.success = true ∧
    (add cs w fields).2.1.cache = none ∧
    ((updateField cs w op).1.success = true → (updateField cs w op).2.1.cache = none) ∧
    ((updateField cs w op).1.success = false → (updateField cs w op).2.1 = cs) ∧
    addCall (.reject msg) cs w fields = .ok ({ success := false, error := some msg }, cs, w) ∧
    updateFieldCall (.reject msg) cs w op = .ok ({ success := false, error := some msg }, cs, w) ∧
    (cs.cache = none → (fetchAll cs w2).2.2.reads = w2.reads + 1) := by
  refine ⟨rfl, rfl, ?_, ?_, rfl, rfl, ?_⟩
  · intro h
    rcases updateField_cases cs w op with ⟨r, _, _, he⟩ | ⟨_, he⟩ | ⟨r, ov, _, _, _, he⟩
    · rw [he]
    · rw [he] at h
      simp at h
    · rw [he] at h
      simp at h
  · intro h
    rcases updateField_cases cs w op with ⟨r, _, _, he⟩ | ⟨_, he⟩ | ⟨r, ov, _, _, _, he⟩
    · rw [he] at h
      simp at h
    · rw [he]
    · rw [he]
  · intro h
    rw [fetchAll_miss cs w2 (by rw [h]; rfl)]

/-- Witness for C3: on the sample sheet, a successful field update leaves the
client with an empty cache, and a fetch on an empty cache performs a backend
read. -/
theorem c3_cache_invalidation_witness :
    (updateField newClient w0
      { identifier := .str "r1", field := "Profit", newValue := "99", oldValue := none }).2.1.cache
      = none ∧
    (fetchAll newClient w0).2.2.reads = w0.reads + 1 := by
  have h := c3_cache_invalidation newClient w0 w0 []
    { identifier := .str "r1", field := "Profit", newValue := "99", oldValue := none } "quota"
  exact ⟨h.2.2.1 (by decide), h.2.2.2.2.2.2 rfl⟩

/-- Claim C4: every expected failure of a mutating call — identifier-not-found,
optimistic-check conflict, backend-reported rejection — is returned as
`{success: false, error: message}` and never as a rejected call; `getRowById`
with an identifier matching no row returns `none` rather than an error; only
transport-level failures propagate as rejected calls. -/
theorem c4_error_channels (cs : ClientState) (w : World)
    (fields : List (String × String)) (op : UpdateOperation) (msg : String)
    (i : Ident) :
    (∀ b : BackendBehavior, (∀ m, b ≠ .transportFail m) →
      ∃ out, addCall b cs w fields = .ok out) ∧
    (∀ b : BackendBehavior, (∀ m, b ≠ .transportFail m) →
      ∃ out, updateFieldCall b cs w op = .ok out) ∧
    addCall (.reject msg) cs w fields = .ok ({ success := false, error := some msg }, cs, w) ∧
    (resolveRow (toRows w.backend) op.identifier = none →
      (updateField cs w op).1 = { success := false, error := some "Row not found" }) ∧
    (∀ r ov, resolveRow (toRows w.backend) op.identifier = some r →
      op.oldValue = some ov → getField r op.field ≠ ov →
      (updateField cs w op).1 =
        { success := false, error := some "Conflict: current value does not match oldValue" }) ∧
    (resolveRow (fetchAll cs w).1 i = none →
      getRowByIdCall none cs w i = .ok (none, (fetchAll cs w).2)) ∧
    addCall (.transportFail msg) cs w fields = .error msg ∧
    updateFieldCall (.transportFail msg) cs w op = .error msg ∧
    getRowByIdCall (some msg) cs w i = .error msg := by
  refine ⟨?_, ?_, rfl, ?_, ?_, ?_, rfl, rfl, rfl⟩
  · intro b hb
    cases b with
    | accept => exact ⟨_, rfl⟩
    | reject m => exact ⟨_, rfl⟩
    | transportFail m => exact absurd rfl (hb m)
  · intro b hb
    cases b with
    | accept => exact ⟨_, rfl⟩
    | reject m => exact ⟨_, rfl⟩
    | transportFail m => exact absurd rfl (hb m)
  · intro h
    unfold updateField
    rw [h]
  · intro r ov hres hov hne
    rcases updateField_cases cs w op with ⟨r', hres', hcond, he⟩ | ⟨hn, he⟩ | ⟨r', ov', hres', hov', _, he⟩
    · exfalso
      rw [hres] at hres'
      cases hres'
      rcases hcond with hn | ⟨ov', hov', hval⟩
      · rw [hn] at hov
        cases hov
      · rw [hov] at hov'
        cases hov'
        exact hne hval
    · rw [hn] at hres
      cases hres
    · rw [he]
  · intro h
    exact congrArg (fun x => Except.ok (x, (fetchAll cs w).2)) h

/-- Witness for C4: on the sample sheet, an update addressed to `"zzz"`
(matching no id, index or field value) returns a not-found response,
`getRowById` on the same identifier returns `none` without error, and an
accepted `add` call is a returned response, not a rejection. -/
theorem c4_error_channels_witness :
    (updateField newClient w0
      { identifier := .str "zzz", field := "Profit", newValue := "1", oldValue := none }).1
      = { success := false, error := some "Row not found" } ∧
    getRowByIdCall none newClient w0 (.str "zzz") = .ok (none, (fetchAll newClient w0).2) ∧
    (∃ out, addCall .accept newClient w0 [] = .ok out) := by
  have h := c4_error_channels newClient w0 []
    { identifier := .str "zzz", field := "Profit", newValue := "1", oldValue := none }
    "m" (.str "zzz")
  refine ⟨h.2.2.2.1 (by decide), h.2.2.2.2.2.1 ?_, h.1 .accept (fun m hm => by cases hm)⟩
  rw [fetchAll_miss newClient w0 rfl]
  decide

/-- Claim C5: when `updateField` supplies `oldValue`, the backend write happens
only if the resolved row's current field value equals `oldValue` — on
mismatch the call returns a conflict failure and the backend (indeed the
whole world) is unchanged; when `oldValue` is omitted no check is performed
and the write is unconditional. -/
theorem c5_optimistic_concurrency (cs : ClientState) (w : World)
    (op : UpdateOperation) (r : Row) (ov : String)
    (hres : resolveRow (toRows w.backend) op.identifier = some r) :
    (op.oldValue = some ov → getField r op.field = ov →
      updateField cs w op = ({ success := true, error := none }, { cache := none },
        { w with backend := writeAt w.backend (r.rowIndex - 1) op.field op.newValue })) ∧
    (op.oldValue = some ov → getField r op.field ≠ ov →
      (updateField cs w op).1 =
        { success := false, error := some "Conflict: current value does not match oldValue" } ∧
      (updateField cs w op).2.2 = w ∧ (updateField cs w op).2.1 = cs) ∧
    (op.oldValue = none →
      updateField cs w op = ({ success := true, error := none }, { cache := none },
        { w with backend := writeAt w.backend (r.rowIndex - 1) op.field op.newValue })) := by
  have hu : ∀ r', resolveRow (toRows w.backend) op.identifier = some r' → r' = r := by
    intro r' h
    rw [hres] at h
    exact (Option.some.inj h).symm
  refine ⟨?_, ?_, ?_⟩
  · intro hov hval
    rcases updateField_cases cs w op with ⟨r', hres', _, he⟩ | ⟨hn, _⟩ | ⟨r', ov', hres', hov', hne, _⟩
    · rw [hu r' hres'] at he
      exact he
    · rw [hn] at hres
      cases hres
    · exfalso
      rw [hov] at hov'
      cases hov'
      rw [hu r' hres'] at hne
      exact hne hval
  · intro hov hne
    rcases updateField_cases cs w op with ⟨r', hres', hcond, _⟩ | ⟨hn, _⟩ | ⟨r', ov', _, _, _, he⟩
    · exfalso
      rcases hcond with hn | ⟨ov', hov', hval⟩
      · rw [hn] at hov
        cases hov
      · rw [hov] at hov'
        cases hov'
        rw [hu r' hres'] at hval
        exact hne hval
    · rw [hn] at hres
      cases hres
    · rw [he]
      exact ⟨rfl, rfl, rfl⟩
  · intro hov
    rcases updateField_cases cs w op with ⟨r', hres', _, he⟩ | ⟨hn, _⟩ | ⟨r', ov', _, hov', _, _⟩
    · rw [hu r' hres'] at he
      exact he
    · rw [hn] at hres
      cases hres
    · rw [hov] at hov'
      cases hov'

/-- Witness for C5: on the sample sheet, updating row `"r1"`'s `Profit` with
the matching `oldValue = "18000"` performs the write, while `oldValue = "17"`
leaves the world unchanged. -/
theorem c5_optimistic_concurrency_witness :
    updateField newClient w0
      { identifier := .str "r1", field := "Profit", newValue := "99", oldValue := some "18000" }
      = ({ success := true, error := none }, { cache := none },
        { w0 with backend := writeAt w0.backend 0 "Profit" "99" }) ∧
    (updateField newClient w0
      { identifier := .str "r1", field := "Profit", newValue := "99", oldValue := some "17" }).2.2
      = w0 := by
  constructor
  · exact (c5_optimistic_concurrency newClient w0
      { identifier := .str "r1", field := "Profit", newValue := "99", oldValue := some "18000" }
      ⟨"r1", 1, rec1.fields⟩ "18000" (by decide)).1 rfl (by decide)
  · exact ((c5_optimistic_concurrency newClient w0
      { identifier := .str "r1", field := "Profit", newValue := "99", oldValue := some "17" }
      ⟨"r1", 1, rec1.fields⟩ "17" (by decide)).2.1 rfl (by decide)).2.1

/-- Claim C6: a successful `updateField` writes `newValue` into exactly the
named field of the single resolved row: the backend keeps its length, every
other position is untouched, the targeted record keeps its id and every other
field's value, and the named field (when the column is present) now holds
`newValue`. -/
theorem c6_update_frame (cs : ClientState) (w : World) (op : UpdateOperation)
    (r : Row)
    (hres : resolveRow (toRows w.backend) op.identifier = some r)
    (hsucc : (updateField cs w op).1.success = true) :
    ((updateField cs w op).2.2.backend).length = w.backend.length ∧
    (∀ j, j ≠ r.rowIndex - 1 →
      ((updateField cs w op).2.2.backend)[j]? = w.backend[j]?) ∧
    (∀ rc, w.backend[r.rowIndex - 1]? = some rc →
      ((updateField cs w op).2.2.backend)[r.rowIndex - 1]? =
        some { rc with fields := setField rc.fields op.field op.newValue } ∧
      (∀ g, g ≠ op.field →
        lookupField (setField rc.fields op.field op.newValue) g = lookupField rc.fields g) ∧
      ((lookupField rc.fields op.field).isSome →
        lookupField (setField rc.fields op.field op.newValue) op.field = some op.newValue) ∧
      (lookupField rc.fields op.field = none →
        lookupField (setField rc.fields op.field op.newValue) op.field = none)) := by
  rw [updateField_success_eq cs w op r hres hsucc]
  refine ⟨writeAt_length _ _ _ _, ?_, ?_⟩
  · intro j hj
    exact writeAt_frame _ _ _ _ _ hj
  · intro rc hrc
    exact ⟨writeAt_target _ _ _ _ _ hrc,
      fun g hg => lookupField_setField_ne _ _ _ _ hg,
      fun hs => lookupField_setField_self _ _ _ hs,
      fun hn => lookupField_setField_none _ _ _ hn⟩

/-- Witness for C6: updating `Profit` of row `"r1"` on the sample sheet
leaves position 1 untouched and rewrites exactly position 0's `Profit`. -/
theorem c6_update_frame_witness :
    ((updateField newClient w0
      { identifier := .str "r1", field := "Profit", newValue := "99", oldValue := none }).2.2.backend)[1]?
      = w0.backend[1]? ∧
    ((updateField newClient w0
      { identifier := .str "r1", field := "Profit", newValue := "99", oldValue := none }).2.2.backend)[0]?
      = some { rec1 with fields := setField rec1.fields "Profit" "99" } := by
  have h := c6_update_frame newClient w0
    { identifier := .str "r1", field := "Profit", newValue := "99", oldValue := none }
    ⟨"r1", 1, rec1.fields⟩ (by decide) (by decide)
  exact ⟨h.2.1 1 (by decide), (h.2.2 rec1 (by decide)).1⟩

/-- Claim C7: `search` returns exactly the fetched rows matching the query, in
their original order (a sublist, so an empty result is an ordinary outcome);
an omitted operator behaves as `contains`; when `field` is given only that
field's value is compared; with no `field` every field value is compared. -/
theorem c7_search (cs : ClientState) (w : World) (q : SearchQuery)
    (f : String) (r r' : Row) :
    (search cs w q).1 = (fetchAll cs w).1.filter (rowMatches q) ∧
    List.Sublist (search cs w q).1 (fetchAll cs w).1 ∧
    (r ∈ (search cs w q).1 ↔ r ∈ (fetchAll cs w).1 ∧ rowMatches q r = true) ∧
    rowMatches { q with operator := none } r
      = rowMatches { q with operator := some .contains } r ∧
    (getField r f = getField r' f →
      rowMatches { q with field := some f } r
        = rowMatches { q with field := some f } r') ∧
    rowMatches { q with field := none } r
      = r.fields.any (fun p => opMatch (q.operator.getD .contains) q.value p.2) := by
  refine ⟨rfl, List.filter_sublist _, List.mem_filter, rfl, ?_, rfl⟩
  intro h
  exact congrArg (fun x => opMatch (q.operator.getD Operator.contains) q.value x) h

/-- Witness for C7: the `equals` match on `Profit = "18000"` depends only on
the `Profit` value (equal across two otherwise different rows), and the §8
example `search({value: "zzz"})` over the sample sheet yields `[]`. -/
theorem c7_search_witness :
    rowMatches { field := some "Profit", value := "18000", operator := some .equals }
        ⟨"r1", 1, rec1.fields⟩
      = rowMatches { field := some "Profit", value := "18000", operator := some .equals }
        ⟨"rX", 9, [("Profit", "18000")]⟩ ∧
    (search newClient w0 { field := none, value := "zzz", operator := none }).1 = [] := by
  constructor
  · exact (c7_search newClient w0
      { field := some "Profit", value := "18000", operator := some .equals } "Profit"
      ⟨"r1", 1, rec1.fields⟩ ⟨"rX", 9, [("Profit", "18000")]⟩).2.2.2.2.1 (by decide)
  · rw [(c7_search newClient w0 { field := none, value := "zzz", operator := none } ""
      ⟨"", 0, []⟩ ⟨"", 0, []⟩).1, fetchAll_miss newClient w0 rfl]
    decide

/-- A single client call never shrinks the backend. -/
theorem step_backend_mono (t : Nat) (op : ClientOp) (s : ClientState × World) :
    s.2.backend.length ≤ (step t op s).2.backend.length := by
  cases op with
  | fetchAllOp =>
    show s.2.backend.length ≤ (fetchAll s.1 { s.2 with now := t }).2.2.backend.length
    rw [fetchAll_backend]
  | addOp fields =>
    show s.2.backend.length ≤ (s.2.backend ++ [_]).length
    simp
  | updateFieldOp u =>
    show s.2.backend.length ≤ (updateField s.1 { s.2 with now := t } u).2.2.backend.length
    rcases updateField_cases s.1 { s.2 with now := t } u with
      ⟨r, _, _, he⟩ | ⟨_, he⟩ | ⟨r, ov, _, _, _, he⟩
    · rw [he]
      exact Nat.le_of_eq (writeAt_length _ _ _ _).symm
    · rw [he]
    · rw [he]
  | searchOp q =>
    show s.2.backend.length ≤ (fetchAll s.1 { s.2 with now := t }).2.2.backend.length
    rw [fetchAll_backend]
  | getRowByIdOp i =>
    show s.2.backend.length ≤ (fetchAll s.1 { s.2 with now := t }).2.2.backend.length
    rw [fetchAll_backend]

/-- Any timed sequence of client calls never shrinks the backend. -/
theorem run_backend_mono (ops : List (Nat × ClientOp)) (s : ClientState × World) :
    s.2.backend.length ≤ (run ops s).2.backend.length := by
  induction ops generalizing s with
  | nil => exact Nat.le_refl _
  | cons o rest ih => exact Nat.le_trans (step_backend_mono o.1 o.2 s) (ih _)

/-- Claim C8: no client operation removes a row from the backend: each of the
five exposed calls — `ClientOp` enumerates the whole client surface, which
contains no delete — keeps the backend row count non-decreasing, and so does
any sequence of calls. -/
theorem c8_rows_never_deleted (t : Nat) (op : ClientOp)
    (ops : List (Nat × ClientOp)) (s : ClientState × World) :
    s.2.backend.length ≤ (step t op s).2.backend.length ∧
    s.2.backend.length ≤ (run ops s).2.backend.length :=
  ⟨step_backend_mono t op s, run_backend_mono ops s⟩

/-- Claim C9: every consumer-initiated operation (`loadData`, `handleAddRow`,
`handleUpdateField`) runs on a brand-new `SheetClient`, whose cache is empty;
consequently a client's cache is never shared between two consumer
operations — every consumer data load performs a backend read, even two loads
back-to-back well inside the TTL, and the refresh after a successful mutation
reads the backend rather than any earlier client's cache. -/
theorem c9_fresh_client_per_operation (s s' : ConsumerState) (w : World)
    (fields : List (String × String)) (rowId f v : String) :
    newClient.cache = none ∧
    (loadData s w).2.reads = w.reads + 1 ∧
    (loadData s' (loadData s w).2).2.reads = w.reads + 2 ∧
    (handleAddRow s w fields).2.reads = w.reads + 1 ∧
    ((updateField newClient w
        { identifier := .str rowId, field := f, newValue := v, oldValue := none }).1.success = true →
      (handleUpdateField s w rowId f v).2.reads = w.reads + 1) := by
  refine ⟨rfl, ?_, ?_, ?_, ?_⟩
  · show (fetchAll newClient w).2.2.reads = w.reads + 1
    rw [fetchAll_miss newClient w rfl]
  · show (fetchAll newClient (fetchAll newClient w).2.2).2.2.reads = w.reads + 2
    rw [fetchAll_miss newClient w rfl, fetchAll_miss newClient _ rfl]
  · show (fetchAll newClient (add newClient w fields).2.2).2.2.reads = w.reads + 1
    rw [fetchAll_miss newClient _ rfl]
    rfl
  · intro hsucc
    rcases updateField_cases newClient w
      { identifier := .str rowId, field := f, newValue := v, oldValue := none } with
      ⟨r, _, _, he⟩ | ⟨_, he⟩ | ⟨r, ov, _, hov, _, _⟩
    · unfold handleUpdateField
      rw [he]
      show (fetchAll newClient _).2.2.reads = w.reads + 1
      rw [fetchAll_miss newClient _ rfl]
    · rw [he] at hsucc
      simp at hsucc
    · exact Option.noConfusion hov

/-- Witness for C9: on the sample sheet, a consumer field update on row
`"r1"` (which succeeds) costs exactly one backend read for its refresh, and a
consumer data load always reads the backend. -/
theorem c9_fresh_client_per_operation_witness :
    (handleUpdateField ⟨[], ""⟩ w0 "r1" "Profit" "99").2.reads = w0.reads + 1 ∧
    (loadData ⟨[], ""⟩ w0).2.reads = w0.reads + 1 := by
  have h := c9_fresh_client_per_operation ⟨[], ""⟩ ⟨[], ""⟩ w0 [] "r1" "Profit" "99"
  exact ⟨h.2.2.2.2 (by decide), h.2.1⟩

/-- Claim C10: a consumer cell edit issues an `updateField` call only when the
edited value differs from the row's current field value, and the call it
issues uses exactly the row's `_id` as identifier (never `_rowIndex` or a
field value) with no `oldValue`; an edit that leaves the value unchanged
issues no call at all — no backend write, no backend read, no cache
invalidation. -/
theorem c10_consumer_update_discipline (s : ConsumerState) (w : World)
    (row : Row) (f v : String) :
    (∀ args, cellOnBlur row f v = some args →
      args.1 = row.id ∧ args.2.1 = f ∧ args.2.2 = v ∧ v ≠ getField row f) ∧
    (v ≠ getField row f → cellOnBlur row f v = some (row.id, f, v)) ∧
    (v = getField row f →
      cellOnBlur row f v = none ∧ cellEditStep s w row f v = (s, w)) := by
  refine ⟨?_, ?_, ?_⟩
  · intro args h
    unfold cellOnBlur at h
    by_cases hv : v = getField row f
    · rw [if_neg (not_not_intro hv)] at h
      exact Option.noConfusion h
    · rw [if_pos hv] at h
      cases h
      exact ⟨rfl, rfl, rfl, hv⟩
  · intro hv
    unfold cellOnBlur
    rw [if_pos hv]
  · intro hv
    have h1 : cellOnBlur row f v = none := by
      unfold cellOnBlur
      rw [if_neg (not_not_intro hv)]
    refine ⟨h1, ?_⟩
    unfold cellEditStep
    rw [h1]

/-- Witness for C10: editing row `"r1"`'s `Profit` to `"19000"` issues the
call `("r1", "Profit", "19000")` — the row's `_id` — while re-entering the
current value `"18000"` leaves consumer state and world untouched. -/
theorem c10_consumer_update_discipline_witness :
    cellOnBlur ⟨"r1", 1, rec1.fields⟩ "Profit" "19000" = some ("r1", "Profit", "19000") ∧
    cellEditStep ⟨[], ""⟩ w0 ⟨"r1", 1, rec1.fields⟩ "Profit" "18000" = (⟨[], ""⟩, w0) := by
  refine ⟨(c10_consumer_update_discipline ⟨[], ""⟩ w0
      ⟨"r1", 1, rec1.fields⟩ "Profit" "19000").2.1 (by decide),
    ((c10_consumer_update_discipline ⟨[], ""⟩ w0
      ⟨"r1", 1, rec1.fields⟩ "Profit" "18000").2.2 (by decide)).2⟩

end SheetApp
